import Mathlib

set_option maxRecDepth 10000

/-!
Shallow embedding of the moltbot-onebot adapter (OneBot v11 ↔ host framework):
segment codec, emoji tables, policy gate, media materialisation decisions and
the outbound reconciler, translated from `src/api.ts`, `src/channel.ts`,
`src/types.ts` and the plugin entry `index.ts`.  Network and filesystem
effects are passed in as explicit oracles; everything else follows the
TypeScript line by line.
-/

namespace OneBot

/-! ## JavaScript string primitives -/

/-- The character class `\s` of JavaScript regular expressions
(WhiteSpace ∪ LineTerminator). -/
def jsWs (c : Char) : Bool :=
  c = ' ' || c = '\t' || c = '\n' || c = '\r' ||
  c = '\x0b' || c = '\x0c' ||
  c = Char.ofNat 0xa0 || c = Char.ofNat 0x1680 ||
  (0x2000 ≤ c.toNat && c.toNat ≤ 0x200a) ||
  c = Char.ofNat 0x2028 || c = Char.ofNat 0x2029 ||
  c = Char.ofNat 0x202f || c = Char.ofNat 0x205f ||
  c = Char.ofNat 0x3000 || c = Char.ofNat 0xfeff

/-- Remove a whitespace-only suffix (the tail half of `String.prototype.trim`). -/
def dropEndWs : List Char → List Char
  | [] => []
  | c :: cs =>
    match dropEndWs cs with
    | [] => if jsWs c then [] else [c]
    | r => c :: r

/-- `String.prototype.trim` on a character list. -/
def jsTrimList (cs : List Char) : List Char :=
  dropEndWs (cs.dropWhile jsWs)

/-- `String.prototype.trim`. -/
def jsTrim (s : String) : String :=
  String.mk (jsTrimList s.data)

/-- Strip an expected literal prefix, returning the remainder
(`s.startsWith p` combined with `s.slice(p.length)`). -/
def stripPfx : List Char → List Char → Option (List Char)
  | [], cs => some cs
  | _ :: _, [] => none
  | p :: ps, c :: cs => if c = p then stripPfx ps cs else none

/-- `startsWith` via `stripPfx`. -/
def hasPfx (p cs : List Char) : Bool :=
  (stripPfx p cs).isSome

/-- Substring occurrence test (`String.prototype.includes` on char lists). -/
def hasInfix (pat : List Char) : List Char → Bool
  | [] => pat.isEmpty
  | c :: cs => hasPfx pat (c :: cs) || hasInfix pat cs

/-- Suffix test (`endsWith` on char lists). -/
def hasSuffix (pat cs : List Char) : Bool :=
  hasPfx pat.reverse cs.reverse

/-- Replace every occurrence of one character (the `replace(/\//g, sep)` idiom). -/
def replaceChar (src dst : Char) (cs : List Char) : List Char :=
  cs.map fun c => if c = src then dst else c

/-- ASCII `toLowerCase`. -/
def lowerList (cs : List Char) : List Char :=
  cs.map Char.toLower

/-- Digit run to number, base 10 (the effect of `parseInt` on an all-digit string). -/
def digitsToNat (ds : List Char) : Nat :=
  ds.foldl (fun n c => n * 10 + (c.toNat - '0'.toNat)) 0

/-- Concatenation of a list of strings (`Array.prototype.join("")`). -/
def strJoin : List String → String
  | [] => ""
  | s :: r => s ++ strJoin r

/-- `Array.prototype.join(sep)`. -/
def strJoinSep (sep : String) : List String → String
  | [] => ""
  | [s] => s
  | s :: r => s ++ sep ++ strJoinSep sep r

/-- JavaScript truthiness of an optional string (`undefined` and `""` are falsy). -/
def truthyStr : Option String → Option String
  | none => none
  | some s => if s = "" then none else some s

/-- `a || b` on optional strings with a final default (`x.summary || x.emoji_id || "表情"`). -/
def jsOrStr (a b : Option String) (dflt : String) : String :=
  match truthyStr a with
  | some s => s
  | none =>
    match truthyStr b with
    | some s => s
    | none => dflt

/-! ## Base64 (`Buffer.prototype.toString("base64")`) -/

/-- The base64 alphabet. -/
def b64Alphabet : List Char :=
  "ABCDEFGHIJKLMNOPQRSTUVWXYZabcdefghijklmnopqrstuvwxyz0123456789+/".data

/-- Index into the base64 alphabet. -/
def b64Char (n : Nat) : Char :=
  b64Alphabet.getD n 'A'

/-- RFC 4648 base64 with padding over a byte list. -/
def base64Chars : List Nat → List Char
  | [] => []
  | [a] => [b64Char (a / 4), b64Char (a % 4 * 16), '=', '=']
  | [a, b] => [b64Char (a / 4), b64Char (a % 4 * 16 + b / 16), b64Char (b % 16 * 4), '=']
  | a :: b :: c :: rest =>
    b64Char (a / 4) :: b64Char (a % 4 * 16 + b / 16) ::
      b64Char (b % 16 * 4 + c / 64) :: b64Char (c % 64) :: base64Chars rest

/-- `Buffer.from(bytes).toString("base64")`. -/
def base64Encode (bytes : List Nat) : String :=
  String.mk (base64Chars bytes)

/-! ## JavaScript numbers as needed by the codec (`parseInt`, `NaN`) -/

/-- A `parseInt` result: a number or `NaN`. -/
inductive JsNum
  | nan
  | num (n : Int)
  deriving DecidableEq, Repr

/-- `parseInt(s, 10)`: skip whitespace, optional sign, leading digit run;
`NaN` when no digit is found. -/
def jsParseInt (s : String) : JsNum :=
  let cs := s.data.dropWhile jsWs
  let (sign, cs) :=
    match cs with
    | '-' :: rest => ((-1 : Int), rest)
    | '+' :: rest => ((1 : Int), rest)
    | _ => ((1 : Int), cs)
  let ds := cs.takeWhile Char.isDigit
  if ds.isEmpty then .nan else .num (sign * (digitsToNat ds : Int))

/-- `String(n)` for a `parseInt` result. -/
def jsNumToString : JsNum → String
  | .nan => "NaN"
  | .num n => toString n

/-! ## Data model (`src/types.ts`) -/

/-- `string | number` union values (config `selfId`, face `id`). -/
inductive JsVal
  | str (s : String)
  | int (n : Int)
  deriving DecidableEq, Repr

/-- JavaScript truthiness of an optional `string | number`. -/
def truthyVal : Option JsVal → Bool
  | none => false
  | some (.str s) => s ≠ ""
  | some (.int n) => n ≠ 0

/-- `String(v)`. -/
def jsValToString : JsVal → String
  | .str s => s
  | .int n => toString n

/-- `OneBotMessage`: the tagged message-segment union of `src/types.ts`,
with the payload fields the codec reads. -/
inductive OneBotMessage
  | text (t : String)
  | face (id : Option JsVal)
  | image (file : String) (url : Option String)
  | record (file : String) (url : Option String)
  | video (file : String) (url : Option String)
  | at (qq : String)
  | reply (id : String)
  | file (file : Option String) (url : Option String)
      (name : Option String) (size : Option Nat)
  | mface (url : Option String) (emojiId : Option String)
      (summary : Option String)
  | other (kind : String)
  deriving DecidableEq, Repr

/-- Group policy values of `OneBotConfig.groupPolicy`. -/
inductive GroupPolicy
  | open_
  | allowlist
  | disabled
  deriving DecidableEq, Repr

/-- `OneBotGroupConfig` (the fields the policy gate reads). -/
structure OneBotGroupConfig where
  enabled : Option Bool := none
  requireMention : Option Bool := none
  deriving DecidableEq, Repr

/-- `OneBotConfig` (the fields inbound processing reads). -/
structure OneBotConfig where
  enabled : Option Bool := none
  groupPolicy : Option GroupPolicy := none
  groups : Option (List (String × OneBotGroupConfig)) := none
  selfId : Option JsVal := none
  deriving DecidableEq, Repr

/-- `groups[key]` lookup on the optional group map. -/
def groupsLookup (groups : Option (List (String × OneBotGroupConfig))) (key : String) :
    Option OneBotGroupConfig :=
  match groups with
  | none => none
  | some gs => (gs.find? (fun p => p.1 = key)).map Prod.snd

/-! ## Face tables (`src/api.ts`: `QQ_FACE_MAP`, `NAPCAT_SAFE_FACE_IDS`) -/

/-- `QQ_FACE_MAP`: the fixed id → name table, in source (ascending-key) order. -/
def QQ_FACE_MAP : List (Nat × String) :=
  [(0, "惊讶"), (1, "撇嘴"), (2, "色"), (3, "发呆"), (4, "得意"), (5, "流泪"),
   (6, "害羞"), (7, "闭嘴"), (8, "睡"), (9, "大哭"), (10, "尴尬"), (11, "发怒"),
   (12, "调皮"), (13, "呲牙"), (14, "微笑"), (15, "难过"), (16, "酷"), (17, "非典"),
   (18, "抓狂"), (19, "吐"), (20, "偷笑"), (21, "可爱"), (22, "白眼"), (23, "傲慢"),
   (24, "饥饿"), (25, "困"), (26, "惊恐"), (27, "流汗"), (28, "憨笑"), (29, "悠闲"),
   (30, "奋斗"), (31, "咒骂"), (32, "疑问"), (33, "嘘"), (34, "晕"), (35, "折磨"),
   (36, "衰"), (37, "骷髅"), (38, "敲打"), (39, "再见"), (40, "发抖"),
   (41, "爱情"), (42, "跳跳"), (43, "猪头"), (44, "拥抱"), (45, "蛋糕"), (46, "闪电"),
   (47, "炸弹"), (48, "刀"), (49, "足球"), (50, "便便"), (51, "咖啡"), (52, "饭"),
   (53, "蛋糕"), (54, "闪电"), (55, "炸弹"), (56, "刀"), (57, "足球"), (58, "瓢虫"),
   (59, "便便"), (60, "咖啡"),
   (61, "饭"), (62, "玫瑰"), (63, "凋谢"), (64, "示爱"), (65, "爱心"), (66, "心碎"),
   (67, "心碎"), (68, "蛋糕"), (69, "礼物"), (70, "闪电"), (71, "炸弹"), (72, "刀"),
   (73, "足球"), (74, "太阳"), (75, "月亮"), (76, "赞"), (77, "踩"), (78, "握手"),
   (79, "胜利"), (80, "抱拳"),
   (81, "勾引"), (82, "拳头"), (83, "差劲"), (84, "爱你"), (85, "飞吻"), (86, "怄火"),
   (87, "NO"), (88, "OK"), (89, "西瓜"), (90, "爱情"), (91, "飞吻"), (92, "跳跳"),
   (93, "发抖"), (94, "怄火"), (95, "转圈"), (96, "冷汗"), (97, "擦汗"), (98, "抠鼻"),
   (99, "鼓掌"), (100, "糗大了"),
   (101, "坏笑"), (102, "左哼哼"), (103, "右哼哼"), (104, "哈欠"), (105, "鄙视"),
   (106, "委屈"), (107, "快哭了"), (108, "阴险"), (109, "亲亲"), (110, "吓"),
   (111, "可怜"), (112, "菜刀"), (113, "啤酒"), (114, "篮球"), (115, "乒乓"),
   (116, "咖啡"), (117, "饭"), (118, "猪头"), (119, "玫瑰"), (120, "凋谢"),
   (121, "示爱"), (122, "爱心"), (123, "心碎"), (124, "蛋糕"), (125, "闪电"),
   (126, "炸弹"), (127, "刀"), (128, "足球"), (129, "瓢虫"), (130, "便便"),
   (131, "月亮"), (132, "太阳"), (133, "礼物"), (134, "拥抱"), (135, "赞"),
   (136, "踩"), (137, "握手"), (138, "胜利"), (139, "抱拳"), (140, "勾引"),
   (141, "拳头"), (142, "差劲"), (143, "爱你"), (144, "NO"), (145, "OK"),
   (146, "爱情"), (147, "飞吻"), (148, "跳跳"), (149, "发抖"), (150, "怄火"),
   (151, "转圈"), (152, "磕头"), (153, "回头"), (154, "跳绳"), (155, "挥手"),
   (156, "激动"), (157, "街舞"), (158, "献吻"), (159, "左太极"), (160, "右太极"),
   (161, "双喜"), (162, "鞭炮"), (163, "灯笼"), (164, "发财"), (165, "K歌"),
   (166, "购物"), (167, "邮件"), (168, "帅"), (169, "喝彩"), (170, "祈祷"),
   (171, "爆筋"), (172, "棒棒糖"), (173, "喝奶"), (174, "下面"), (175, "香蕉"),
   (176, "飞机"), (177, "开车"), (178, "左车头"), (179, "车厢"), (180, "右车头"),
   (181, "多云"), (182, "下雨"), (183, "钞票"), (184, "熊猫"), (185, "灯泡"),
   (186, "风车"), (187, "闹钟"), (188, "打伞"), (189, "彩球"), (190, "钻戒"),
   (191, "沙发"), (192, "纸巾"), (193, "药"), (194, "手枪"), (195, "青蛙"),
   (196, "茶"), (197, "眨眼睛"), (198, "泪奔"), (199, "无奈"), (200, "卖萌"),
   (201, "小纠结"), (202, "喷血"), (203, "斜眼笑"), (204, "doge"), (205, "惊喜"),
   (206, "骚扰"), (207, "笑哭"), (208, "我最美"), (209, "河蟹"), (210, "羊驼"),
   (211, "栗子"), (212, "幽灵"), (213, "蛋"), (214, "菊花"), (215, "红包"),
   (216, "大笑"), (217, "不开心"), (218, "冷漠"), (219, "呃"), (220, "好棒"),
   (221, "拜托"), (222, "点赞"), (223, "无聊"), (224, "托脸"), (225, "吃"),
   (226, "送花"), (227, "害怕"), (228, "花痴"), (229, "小样儿"), (230, "飙泪"),
   (231, "我不看"), (232, "托腮"), (233, "啵啵"), (234, "糊脸"), (235, "拍头"),
   (236, "扯一扯"), (237, "舔一舔"), (238, "蹭一蹭"), (239, "拽炸天"), (240, "顶呱呱"),
   (241, "抱抱"), (242, "暴击"), (243, "开枪"), (244, "撩一撩"), (245, "拍桌"),
   (246, "拍手"), (247, "恭喜"), (248, "干杯"), (249, "嘲讽"), (250, "哼"),
   (251, "佛系"), (252, "掐一掐"), (253, "惊呆"), (254, "颤抖"), (255, "啃头"),
   (256, "偷看"), (257, "扇脸"), (258, "原谅"), (259, "喷脸"), (260, "生日快乐"),
   (261, "头撞击"), (262, "甩头"), (263, "扔狗"), (264, "加油必胜"), (265, "加油抱抱"),
   (266, "口罩护体"), (267, "搬砖中"), (268, "忙到飞起"), (269, "脑阔疼"), (270, "沧桑"),
   (271, "捂脸"), (272, "辣眼睛"), (273, "哦哟"), (274, "头秃"), (275, "问号脸"),
   (276, "暗中观察"), (277, "emm"), (278, "吃瓜"), (279, "呵呵哒"), (280, "我酸了"),
   (281, "太南了"), (282, "辣椒酱"), (283, "汪汪"), (284, "汗"), (285, "打脸"),
   (286, "击掌"), (287, "无眼笑"), (288, "敬礼"), (289, "狂笑"), (290, "面无表情"),
   (291, "摸鱼"), (292, "魔鬼笑"), (293, "哦"), (294, "请"), (295, "睁眼"),
   (296, "敲开心"), (297, "震惊"), (298, "让我康康"), (299, "摸锦鲤"), (300, "期待"),
   (301, "拿到红包"), (302, "真好"), (303, "拜谢"), (304, "元宝"), (305, "牛啊"),
   (306, "胖三斤"), (307, "好闪"), (308, "左拜年"), (309, "右拜年"), (310, "红包包"),
   (311, "右亲亲"), (312, "牛气冲天"), (313, "喵喵"), (314, "求红包"), (315, "谢红包"),
   (316, "新年烟花"), (317, "打call"), (318, "变形"), (319, "嗑到了"), (320, "仔细分析"),
   (321, "加油"), (322, "我没事"), (323, "菜狗"), (324, "崇拜"), (325, "比心"),
   (326, "庆祝"), (327, "老色痞"), (328, "拒绝"), (329, "嫌弃"), (330, "吃糖"),
   (331, "惊吓"), (332, "生气"), (333, "加一"), (334, "减一"), (335, "合十"),
   (336, "裂开"), (337, "墨镜"), (338, "社会社会"), (339, "旺柴"), (340, "好的"),
   (341, "举牌牌"), (342, "豹子头"), (343, "假笑"), (344, "打招呼"), (345, "摸摸"),
   (346, "酸Q"), (347, "我方了"), (348, "大怨种"), (349, "红包多多"), (350, "烟花"),
   (351, "福"), (352, "花朝节"), (353, "发红包"), (354, "我想开了"), (355, "疑惑"),
   (400, "比心"), (401, "心动"), (402, "鼓掌"), (403, "撒花"), (404, "炫舞"),
   (405, "翻跟头"), (406, "跳跳"), (407, "惊喜"), (408, "仔细分析"), (409, "变形"),
   (450, "比心"), (451, "飞吻"), (452, "抱抱"), (453, "撒娇"), (454, "啾啾"),
   (455, "么么哒"), (456, "给心心"), (457, "打气"), (458, "眨眼"), (459, "酷"),
   (460, "调皮"), (461, "可爱"), (462, "得意"), (463, "难过"), (464, "呆"),
   (465, "生气"), (466, "惊讶"), (467, "汗"), (468, "吐"), (469, "睡"),
   (500, "好耶"), (501, "芭比Q"), (502, "小叶子举牌"), (503, "汤圆"), (504, "元宵快乐")]

/-- `QQ_FACE_MAP[id]` lookup. -/
def faceMapLookup (id : Int) : Option String :=
  (QQ_FACE_MAP.find? (fun p => (p.1 : Int) = id)).map Prod.snd

/-- `NAPCAT_SAFE_FACE_IDS`: ids the downstream gateway is known to deliver. -/
def NAPCAT_SAFE_FACE_IDS : List Nat :=
  [0, 1, 2, 3, 4, 5, 6, 7, 8, 9, 10, 11, 12, 13, 14, 15, 16, 17, 18, 19, 20,
   21, 22, 23, 24, 25, 26, 27, 28, 29, 30, 31, 32, 33, 34, 35, 36, 37, 38, 39,
   96, 97, 98, 99, 100, 101, 102, 103, 104, 105, 106, 107, 108, 109, 110]

/-- JS object property lookup on an ordered entry list. -/
def entriesLookup (m : List (String × Nat)) (name : String) : Option Nat :=
  (m.find? (fun p => p.1 = name)).map Prod.snd

/-- One step of building the name → id map: keep only safe ids and prefer
the smaller id for a duplicated name
(`if (!(name in map) || id < map[name]) map[name] = id`). -/
def faceNameStep (m : List (String × Nat)) (e : Nat × String) : List (String × Nat) :=
  if NAPCAT_SAFE_FACE_IDS.contains e.1 then
    match entriesLookup m e.2 with
    | none => m ++ [(e.2, e.1)]
    | some cur =>
      if e.1 < cur then m.map (fun q => if q.1 = e.2 then (q.1, e.1) else q) else m
  else m

/-- The entries of `QQ_FACE_NAME_TO_ID`, built by iterating `QQ_FACE_MAP`. -/
def faceNameEntries : List (String × Nat) :=
  QQ_FACE_MAP.foldl faceNameStep []

/-- `QQ_FACE_NAME_TO_ID[name]` lookup. -/
def QQ_FACE_NAME_TO_ID (name : String) : Option Nat :=
  entriesLookup faceNameEntries name

/-- `getFaceIdByName`. -/
def getFaceIdByName (name : String) : Option Nat :=
  QQ_FACE_NAME_TO_ID name

/-! ## Segment codec (`src/api.ts`) -/

/-- The `face` payload id as seen by `extractTextFromMessage`
(`typeof data.id === "string" ? parseInt(data.id, 10) : data.id`). -/
def faceIdOf : Option JsVal → Option JsNum
  | none => none
  | some (.str s) => some (jsParseInt s)
  | some (.int n) => some (.num n)

/-- Rendering of a `face` segment: `[表情:${faceName ?? faceId ?? "emoji"}]`. -/
def renderFace (id? : Option JsVal) : String :=
  let faceId := faceIdOf id?
  let faceName :=
    match faceId with
    | some (.num n) => faceMapLookup n
    | _ => none
  "[表情:" ++
    (match faceName with
     | some nm => nm
     | none =>
       match faceId with
       | some j => jsNumToString j
       | none => "emoji") ++ "]"

/-- The `parts` list accumulated by `extractTextFromMessage`. -/
def extractParts : List OneBotMessage → List String
  | [] => []
  | seg :: rest =>
    match seg with
    | .text t => if t = "" then extractParts rest else t :: extractParts rest
    | .face id? => renderFace id? :: extractParts rest
    | .mface _ emojiId summary =>
      ("[大表情:" ++ jsOrStr summary emojiId "表情" ++ "]") :: extractParts rest
    | _ => extractParts rest

/-- `extractTextFromMessage`: plain text of a segment list (`parts.join("")`). -/
def extractTextFromMessage (msg : List OneBotMessage) : String :=
  strJoin (extractParts msg)

/-- Kinds of extracted media. -/
inductive MediaTy
  | image | record | video | file | mface
  deriving DecidableEq, Repr

/-- `ExtractedMedia`. -/
structure ExtractedMedia where
  type : MediaTy
  url : String
  file : Option String := none
  fileName : Option String := none
  fileSize : Option Nat := none
  summary : Option String := none
  deriving DecidableEq, Repr

/-- `a || b` where `a` is optional and `b` a plain string (`data.url || data.file`). -/
def jsOrField (a : Option String) (b : String) : Option String :=
  match truthyStr a with
  | some s => some s
  | none => if b = "" then none else some b

/-- `extractMediaFromMessage`: collect image/mface/record/video/file segments. -/
def extractMediaFromMessage : List OneBotMessage → List ExtractedMedia
  | [] => []
  | seg :: rest =>
    let tail := extractMediaFromMessage rest
    match seg with
    | .image f u =>
      match jsOrField u f with
      | some url => { type := .image, url := url, file := some f } :: tail
      | none => tail
    | .mface u e s =>
      match truthyStr u with
      | some url => { type := .mface, url := url, summary := some (jsOrStr s e "表情") } :: tail
      | none => tail
    | .record f u =>
      match jsOrField u f with
      | some url => { type := .record, url := url, file := some f } :: tail
      | none => tail
    | .video f u =>
      match jsOrField u f with
      | some url => { type := .video, url := url, file := some f } :: tail
      | none => tail
    | .file f u nm sz =>
      match (match truthyStr u with
             | some s => some s
             | none => truthyStr f) with
      | some url =>
        { type := .file, url := url, file := f, fileName := nm, fileSize := sz } :: tail
      | none => tail
    | _ => tail

/-- `isAtUser`: does an `at` segment target `userId` or `"all"`? -/
def isAtUser (msg : List OneBotMessage) (userId : JsVal) : Bool :=
  let s := jsValToString userId
  msg.any fun seg =>
    match seg with
    | .at qq => qq = s || qq = "all"
    | _ => false

/-! ## Emoji notation scanner (`parseTextWithEmoji`, `hasEmojiCode`)

The regex `\[表情:([^\]]+)\]|\[face:(\d+)\]` applied by a left-to-right
scan.  Both alternatives are deterministic: a fixed opener, a non-empty
greedy run, then a literal `]`. -/

/-- The opener of the name alternative, `[表情:`. -/
def faceNameMark : List Char := ['[', '表', '情', ':']

/-- The opener of the id alternative, `[face:`. -/
def faceIdMark : List Char := ['[', 'f', 'a', 'c', 'e', ':']

/-- Match `\[表情:([^\]]+)\]` at the head of the input;
returns the captured name and the remainder. -/
def tryFaceName (cs : List Char) : Option (List Char × List Char) :=
  match stripPfx faceNameMark cs with
  | none => none
  | some rest =>
    let nm := rest.takeWhile (fun c => c ≠ ']')
    if nm.isEmpty then none
    else
      match rest.dropWhile (fun c => c ≠ ']') with
      | ']' :: r => some (nm, r)
      | _ => none

/-- Match `\[face:(\d+)\]` at the head of the input;
returns the captured digit run and the remainder. -/
def tryFaceId (cs : List Char) : Option (List Char × List Char) :=
  match stripPfx faceIdMark cs with
  | none => none
  | some rest =>
    let ds := rest.takeWhile Char.isDigit
    if ds.isEmpty then none
    else
      match rest.dropWhile Char.isDigit with
      | ']' :: r => some (ds, r)
      | _ => none

/-- The segment emitted for a name match: a `face` segment when the name
resolves, otherwise the literal matched text (`match[0]`). -/
def emojiSegOfName (nm : List Char) : OneBotMessage :=
  match QQ_FACE_NAME_TO_ID (String.mk nm) with
  | some id => .face (some (.int id))
  | none => .text (String.mk (faceNameMark ++ nm ++ [']']))

/-- `pattern.test(text)`: is there a match at any position? -/
def emojiTest : List Char → Bool
  | [] => false
  | c :: cs =>
    (tryFaceName (c :: cs)).isSome || (tryFaceId (c :: cs)).isSome || emojiTest cs

/-- `hasEmojiCode`. -/
def hasEmojiCode (text : String) : Bool :=
  emojiTest text.data

/-- Flush the pending plain-text run (reversed) in front of `acc`,
as `parseTextWithEmoji` pushes `beforeText` / `remainingText`. -/
def flushText (pending : List Char) (acc : List OneBotMessage) : List OneBotMessage :=
  if pending.isEmpty then acc else .text (String.mk pending.reverse) :: acc

/-- The scan loop of `parseTextWithEmoji`.  `pending` is the reversed run of
plain characters since the last match; a positive `skip` means the head
characters belong to an already-emitted match and are consumed silently. -/
def emojiScanAux : List Char → List Char → Nat → List OneBotMessage
  | [], pending, _ => flushText pending []
  | _ :: cs, pending, skip + 1 => emojiScanAux cs pending skip
  | c :: cs, pending, 0 =>
    match tryFaceName (c :: cs) with
    | some (nm, _) =>
      flushText pending (emojiSegOfName nm :: emojiScanAux cs [] (4 + nm.length))
    | none =>
      match tryFaceId (c :: cs) with
      | some (ds, _) =>
        flushText pending
          (.face (some (.int (digitsToNat ds))) :: emojiScanAux cs [] (6 + ds.length))
      | none => emojiScanAux cs (c :: pending) 0

/-- All matches and surrounding text runs of the input, in order. -/
def emojiScan (cs : List Char) : List OneBotMessage :=
  emojiScanAux cs [] 0

/-- `parseTextWithEmoji`: the segment list, or a single text segment
carrying the whole input when nothing matched. -/
def parseTextWithEmoji (text : String) : List OneBotMessage :=
  match emojiScan text.data with
  | [] => [.text text]
  | segs => segs

/-! ## Media kind detection and local-file resolution (`index.ts`) -/

/-- Media kinds distinguished by `detectMediaKind`. -/
inductive MediaKind
  | image | video | audio | document
  deriving DecidableEq, Repr

/-- Image extensions of `detectMediaKind`. -/
def imageExts : List String := ["jpg", "jpeg", "png", "gif", "webp", "bmp"]

/-- Video extensions. -/
def videoExts : List String := ["mp4", "avi", "mov", "mkv", "webm"]

/-- Audio extensions. -/
def audioExts : List String := ["mp3", "ogg", "wav", "m4a", "flac", "opus"]

/-- The test `/\.(e1|e2|...)(\?|$)/` on an already-lowercased string. -/
def extTest (lower : List Char) (exts : List String) : Bool :=
  exts.any fun e =>
    hasInfix ("." ++ e ++ "?").data lower || hasSuffix ("." ++ e).data lower

/-- `detectMediaKind`: extension-based classification, default image. -/
def detectMediaKind (url : String) : MediaKind :=
  let lower := lowerList url.data
  if extTest lower imageExts then .image
  else if extTest lower videoExts then .video
  else if extTest lower audioExts then .audio
  else .image

/-- The regex `^[A-Za-z]:[\\\/]` (Windows drive-letter path). -/
def isWinDrive (cs : List Char) : Bool :=
  match cs with
  | a :: ':' :: s :: _ => a.isAlpha && (s = '\\' || s = '/')
  | _ => false

/-- `isLocalFilePath`. -/
def isLocalFilePath (url : String) : Bool :=
  hasPfx "file://".data url.data ||
  isWinDrive url.data ||
  (hasPfx "/".data url.data && !hasPfx "//".data url.data)

/-- URI-scheme normalization of `localFileToBase64Url`:
`slice(8)` after `file:///`, else `slice(7)` after `file://`. -/
def normalizeFileUrl (p : List Char) : List Char :=
  match stripPfx "file:///".data p with
  | some r => r
  | none =>
    match stripPfx "file://".data p with
    | some r => r
    | none => p

/-- `localFileToBase64Url`; `sep` is `path.sep` and `fsRead` stands for
`fs.access` + `fs.readFile` (`none` models the caught exception). -/
def localFileToBase64Url (sep : Char) (fsRead : String → Option (List Nat))
    (filePath : String) : Option String :=
  let normalized := replaceChar '/' sep (normalizeFileUrl filePath.data)
  match fsRead (String.mk normalized) with
  | none => none
  | some bytes => some ("base64://" ++ base64Encode bytes)

/-! ## Outbound sends as a request trace (`index.ts` deliver callback) -/

/-- Message argument of `sendMsg`: a plain string or a segment array. -/
inductive SendMessageBody
  | plain (s : String)
  | segs (l : List OneBotMessage)
  deriving DecidableEq, Repr

/-- One outbound API request. -/
inductive SendReq
  | sendImage (file : String) (text : Option String)
  | sendVideo (file : String) (text : Option String)
  | sendRecord (file : String)
  | sendText (message : SendMessageBody)
  deriving DecidableEq, Repr

/-- `deliverMediaToOneBot`: the requests issued and the boolean result.
`api` models the gateway's per-request `status === "ok"`. -/
def deliverMediaToOneBot (sep : Char) (fsRead : String → Option (List Nat))
    (api : SendReq → Bool) (mediaUrl : String) (caption : Option String) :
    List SendReq × Bool :=
  let kind := detectMediaKind mediaUrl
  let url? : Option String :=
    if isLocalFilePath mediaUrl then localFileToBase64Url sep fsRead mediaUrl
    else some mediaUrl
  match url? with
  | none => ([], false)
  | some url =>
    match kind with
    | .video =>
      let r := SendReq.sendVideo url caption
      ([r], api r)
    | .audio =>
      let r := SendReq.sendRecord url
      if api r then
        match truthyStr caption with
        | some cap => ([r, .sendText (.plain cap)], true)
        | none => ([r], true)
      else ([r], false)
    | _ =>
      let r := SendReq.sendImage url caption
      ([r], api r)

/-- The standalone text send with the emoji-encoding fallback
(the tail of the deliver callback). -/
def textSendTrace (api : SendReq → Bool) (text : String) : List SendReq :=
  let useEmoji := hasEmojiCode text
  let msg : SendMessageBody :=
    if useEmoji then .segs (parseTextWithEmoji text) else .plain text
  let r1 := SendReq.sendText msg
  if api r1 then [r1]
  else if useEmoji then [r1, .sendText (.plain text)]
  else [r1]

/-- The media loop of the deliver callback: the first (index 0) url carries
the caption when text is present; empty urls are skipped. -/
def mediaLoopTrace (sep : Char) (fsRead : String → Option (List Nat))
    (api : SendReq → Bool) (urls : List String) (caption : Option String) :
    List SendReq :=
  (urls.enum.map fun p =>
    if p.2 = "" then []
    else (deliverMediaToOneBot sep fsRead api p.2
      (if p.1 = 0 then caption else none)).1).flatten

/-- The reply payload handed to the deliver callback. -/
structure ReplyPayload where
  text : Option String := none
  mediaUrls : Option (List String) := none
  mediaUrl : Option String := none
  audioAsVoice : Bool := false
  deriving DecidableEq, Repr

/-- The deliver callback of `processOneBotMessage` as a request trace:
voice branch, media loop, caption suppression, then standalone text. -/
def deliverReply (sep : Char) (fsRead : String → Option (List Nat))
    (api : SendReq → Bool) (payload : ReplyPayload) : List SendReq :=
  let textT : Option String := payload.text.map jsTrim
  let hasText : Bool :=
    match textT with
    | some t => t ≠ ""
    | none => false
  let urls : List String :=
    match payload.mediaUrls with
    | some l => l
    | none =>
      match payload.mediaUrl with
      | some u => if u = "" then [] else [u]
      | none => []
  if !hasText && urls.isEmpty then []
  else
    let voice : Option (List SendReq) :=
      if payload.audioAsVoice && !urls.isEmpty then
        match urls.head? with
        | some fm =>
          if fm ≠ "" ∧ detectMediaKind fm = MediaKind.audio then
            some (deliverMediaToOneBot sep fsRead api fm none).1
          else none
        | none => none
      else none
    match voice with
    | some tr => tr
    | none =>
      let caption : Option String := if hasText then textT else none
      let mediaTr :=
        if urls.isEmpty then [] else mediaLoopTrace sep fsRead api urls caption
      if !urls.isEmpty && hasText then mediaTr
      else
        mediaTr ++
          (match textT with
           | some t => if t = "" then [] else textSendTrace api t
           | none => [])

/-! ## Inbound media materialisation and body construction (`index.ts`) -/

/-- `Math.round(size / 1024)`. -/
def jsRoundKB (n : Nat) : Nat := (n + 512) / 1024

/-- Result of `downloadImageToTempFile`. -/
structure ImgDownload where
  path : String
  dataUrl : String
  mimeType : String
  size : Nat
  deriving DecidableEq, Repr

/-- Result of `downloadFileToTemp`. -/
structure FileDownload where
  path : String
  content : Option String
  mimeType : String
  size : Nat
  isText : Bool
  deriving DecidableEq, Repr

/-- Effect oracles for the inbound media loop: downloads, local reads,
URI decoding and existence checks. -/
structure MediaOracles where
  downloadImage : String → Option ImgDownload
  readLocalFile : String → Option (List Nat)
  decodeURI : String → Option String
  fsExists : String → Bool
  downloadFile : String → Option FileDownload

/-- The four accumulator arrays and the voice flag of the loop. -/
structure MediaAcc where
  mediaPaths : List String := []
  mediaUrls : List String := []
  mediaTypes : List String := []
  fileContents : List String := []
  hasInboundAudio : Bool := false
  deriving DecidableEq, Repr

/-- `url.startsWith("http://") || url.startsWith("https://")`. -/
def isHttpUrlOf (url : String) : Bool :=
  hasPfx "http://".data url.data || hasPfx "https://".data url.data

/-- The loop's local-path test: `/^[A-Za-z]:[\\\/]/.test(url) || url.startsWith("/")`. -/
def isLocalPathOf (url : String) : Bool :=
  isWinDrive url.data || hasPfx "/".data url.data

/-- The basename of a path (portion after the last separator). -/
def basenameOf : List Char → List Char :=
  List.foldl (fun acc c => if c = '/' || c = '\\' then [] else acc ++ [c]) []

/-- `path.extname` (empty for no dot or a leading-dot file). -/
def extnameOf (cs : List Char) : List Char :=
  let base := basenameOf cs
  let pre := base.reverse.takeWhile (fun c => c ≠ '.')
  if pre.length = base.length then []
  else if pre.length + 1 = base.length then []
  else '.' :: pre.reverse

/-- The local-image MIME table (default `image/png`). -/
def imageMimeOfExt (ext : String) : String :=
  if ext = ".png" then "image/png"
  else if ext = ".jpg" then "image/jpeg"
  else if ext = ".jpeg" then "image/jpeg"
  else if ext = ".gif" then "image/gif"
  else if ext = ".webp" then "image/webp"
  else "image/png"

/-- Voice MIME detection (`.silk`, `.mp3`, `.ogg`/`.opus`, `.wav`, default AMR). -/
def voiceMimeOf (filePath : String) : String :=
  let ext := String.mk (lowerList (extnameOf filePath.data))
  if ext = ".silk" || hasInfix ".silk".data filePath.data then "audio/silk"
  else if ext = ".mp3" then "audio/mpeg"
  else if ext = ".ogg" || ext = ".opus" then "audio/ogg"
  else if ext = ".wav" then "audio/wav"
  else "audio/amr"

/-- One iteration of the inbound media loop. -/
def processMediaItem (O : MediaOracles) (acc : MediaAcc) (m : ExtractedMedia) :
    MediaAcc :=
  if m.url = "" then acc
  else
    let url := m.url
    let isHttp := isHttpUrlOf url
    let isLocal := isLocalPathOf url
    if !isHttp && !isLocal then acc
    else
      match m.type with
      | .image | .mface =>
        if isHttp then
          match O.downloadImage url with
          | some r =>
            { acc with
              mediaPaths := acc.mediaPaths ++ [r.path]
              mediaUrls := acc.mediaUrls ++ [r.dataUrl]
              mediaTypes := acc.mediaTypes ++ [r.mimeType] }
          | none => acc
        else
          match O.readLocalFile url with
          | some buf =>
            let mime := imageMimeOfExt (String.mk (lowerList (extnameOf url.data)))
            let dataUrl := "data:" ++ mime ++ ";base64," ++ base64Encode buf
            { acc with
              mediaPaths := acc.mediaPaths ++ [url]
              mediaUrls := acc.mediaUrls ++ [dataUrl]
              mediaTypes := acc.mediaTypes ++ [mime] }
          | none => acc
      | .record =>
        let acc := { acc with hasInboundAudio := true }
        if isLocal then
          let decoded : Option String :=
            match O.decodeURI url with
            | some d => if d ≠ url && O.fsExists d then some d else none
            | none => none
          match decoded with
          | some d =>
            { acc with
              mediaPaths := acc.mediaPaths ++ [d]
              mediaTypes := acc.mediaTypes ++ [voiceMimeOf d] }
          | none =>
            if O.fsExists url then
              { acc with
                mediaPaths := acc.mediaPaths ++ [url]
                mediaTypes := acc.mediaTypes ++ [voiceMimeOf url] }
            else
              { acc with
                fileContents := acc.fileContents ++
                  ["\n[用户发送了一条语音消息，但文件无法访问。请检查 QQ 数据目录权限。]"] }
        else
          { acc with
            mediaUrls := acc.mediaUrls ++ [url]
            mediaTypes := acc.mediaTypes ++ ["audio/amr"] }
      | .file =>
        if isHttp then
          match O.downloadFile url with
          | some r =>
            if r.isText ∧ (truthyStr r.content).isSome then
              { acc with
                fileContents := acc.fileContents ++
                  ["\n\n--- 文件: " ++ jsOrStr m.fileName none "unknown" ++ " ---\n" ++
                   r.content.getD "" ++ "\n--- 文件结束 ---"] }
            else
              { acc with
                fileContents := acc.fileContents ++
                  ["\n[收到文件: " ++ jsOrStr m.fileName none "unknown" ++ ", 大小: " ++
                   toString (jsRoundKB r.size) ++ "KB, 类型: " ++ r.mimeType ++ "]"] }
          | none => acc
        else
          match O.readLocalFile url with
          | some buf =>
            { acc with
              fileContents := acc.fileContents ++
                ["\n[收到文件: " ++
                 jsOrStr m.fileName (some (String.mk (basenameOf url.data))) "" ++
                 ", 大小: " ++ toString (jsRoundKB buf.length) ++ "KB]"] }
          | none => acc
      | .video => acc

/-- The whole media loop. -/
def runMediaLoop (O : MediaOracles) (items : List ExtractedMedia) : MediaAcc :=
  items.foldl (processMediaItem O) {}

/-- The mention strip `rawBody.replace(/@[^\s]+\s*/g, "")` as a
left-to-right scan; a positive `skip` consumes characters of an
already-recognised match. -/
def stripAtAux : List Char → Nat → List Char
  | [], _ => []
  | _ :: cs, skip + 1 => stripAtAux cs skip
  | c :: cs, 0 =>
    if c = '@' && !(cs.takeWhile (fun d => !jsWs d)).isEmpty then
      stripAtAux cs
        ((cs.takeWhile (fun d => !jsWs d)).length +
         ((cs.dropWhile (fun d => !jsWs d)).takeWhile jsWs).length)
    else c :: stripAtAux cs 0

/-- `rawBody.replace(/@[^\s]+\s*/g, "").trim()`. -/
def stripMentions (s : String) : String :=
  String.mk (jsTrimList (stripAtAux s.data 0))

/-- One bracketed placeholder per media item (`<media:...>`). -/
def mediaPlaceholder (m : ExtractedMedia) : String :=
  match m.type with
  | .image => "<media:image>"
  | .mface => "<media:sticker:" ++ jsOrStr m.summary none "表情" ++ ">"
  | .record => "<media:audio>"
  | .video => "<media:video>"
  | .file => "<media:file>"

/-- `OneBotConfig` truthiness of `selfId` and the whole inbound body
construction of `processOneBotMessage` up to the empty-content rule:
`none` is the skip (reject) outcome; `some body` is what reaches the
envelope builder. -/
def computeInboundBody (O : MediaOracles) (cfg : OneBotConfig) (isGroup : Bool)
    (msg : List OneBotMessage) : Option String :=
  let rawBody0 := jsTrim (extractTextFromMessage msg)
  let extracted := extractMediaFromMessage msg
  let acc := runMediaLoop O extracted
  let rawBody1 :=
    if acc.fileContents.isEmpty then rawBody0 else rawBody0 ++ strJoin acc.fileContents
  let hasMedia := !acc.mediaPaths.isEmpty
  let wasMentioned :=
    isGroup && truthyVal cfg.selfId && isAtUser msg (cfg.selfId.getD (.str ""))
  let rawBody2 := if wasMentioned then stripMentions rawBody1 else rawBody1
  if rawBody2 = "" && !hasMedia then none
  else if rawBody2 = "" && hasMedia then
    some (strJoinSep " " (extracted.map mediaPlaceholder))
  else some rawBody2

/-! ## Policy gate and webhook routing (`index.ts`) -/

/-- The group-policy checks of `processOneBotMessage`
(`true` = accept, `false` = reject/skip). -/
def groupGate (cfg : OneBotConfig) (groupId : Nat) (wasMentioned : Bool) : Bool :=
  let policy := cfg.groupPolicy.getD .allowlist
  if policy = .disabled then false
  else
    let gc :=
      match groupsLookup cfg.groups (toString groupId) with
      | some g => some g
      | none => groupsLookup cfg.groups "*"
    if policy = .allowlist && gc.isNone then false
    else if (gc.bind OneBotGroupConfig.enabled) = some false then false
    else
      let requireMention := (gc.bind OneBotGroupConfig.requireMention).getD true
      if requireMention && !wasMentioned then false else true

/-- Event post types. -/
inductive PostType
  | message | notice | request | metaEvent
  deriving DecidableEq, Repr

/-- Chat kinds of a message event. -/
inductive ChatKind
  | private_ | group
  deriving DecidableEq, Repr

/-- The fields of an inbound event the webhook handler inspects. -/
structure OneBotEvent where
  postType : PostType
  messageType : ChatKind
  userId : Nat
  groupId : Option Nat := none
  selfId : Nat
  message : List OneBotMessage := []
  deriving DecidableEq, Repr

/-- Terminal routing outcomes of `handleOneBotWebhook`. -/
inductive WebhookOutcome
  | notEnabled
  | badRequest
  | ignoredNonMessage
  | ignoredGroup
  | processed
  deriving DecidableEq, Repr

/-- `handleOneBotWebhook` routing: enabled check, body parse, event filters.
`processed` means `processOneBotMessage` is invoked on the event. -/
def handleOneBotWebhook (cfg : OneBotConfig) (parseOk : Bool) (ev : OneBotEvent) :
    WebhookOutcome :=
  if !(cfg.enabled.getD false) then .notEnabled
  else if !parseOk then .badRequest
  else if ev.postType ≠ .message then .ignoredNonMessage
  else if ev.messageType = .group then .ignoredGroup
  else .processed

/-! ## `sendMsg` parameter validation (`src/api.ts`) -/

/-- `messageType` of `sendMsg` parameters. -/
inductive MsgType
  | private_ | group
  deriving DecidableEq, Repr

/-- The parameters of `sendMsg`. -/
structure SendMsgParams where
  messageType : MsgType
  userId : Option Int := none
  groupId : Option Int := none
  message : SendMessageBody
  deriving DecidableEq, Repr

/-- JavaScript truthiness of an optional number (`undefined`, `0` falsy). -/
def truthyNum : Option Int → Bool
  | none => false
  | some n => n ≠ 0

/-- The HTTP call `sendMsg` dispatches when validation passes. -/
inductive ApiCall
  | sendPrivateMsg (userId : Int) (message : List OneBotMessage)
  | sendGroupMsg (groupId : Int) (message : List OneBotMessage)
  deriving DecidableEq, Repr

/-- The string→segment normalisation done by `sendMsg`. -/
def msgToSegments : SendMessageBody → List OneBotMessage
  | .plain s => [.text s]
  | .segs l => l

/-- `sendMsg`: dispatch to `send_private_msg`/`send_group_msg`, or throw
`"Invalid message params"` with no HTTP call. -/
def sendMsg (params : SendMsgParams) : Except String ApiCall :=
  let msg := msgToSegments params.message
  if params.messageType = .private_ ∧ truthyNum params.userId then
    .ok (.sendPrivateMsg (params.userId.getD 0) msg)
  else if params.messageType = .group ∧ truthyNum params.groupId then
    .ok (.sendGroupMsg (params.groupId.getD 0) msg)
  else
    .error "Invalid message params"

/-! ## Specification-side predicates and concrete scenario data -/

/-- No `@`-token survives: every `'@'` in the list is its last character or is
immediately followed by whitespace (so `@[^\s]+` cannot match). -/
def noDanglingAt : List Char → Bool
  | [] => true
  | [_] => true
  | c :: d :: rest => (if c = '@' then jsWs d else true) && noDanglingAt (d :: rest)

/-- Per-segment text contribution as the (amended) spec describes it:
text, face and mface segments contribute; every other kind is skipped. -/
def specSegmentContribution : OneBotMessage → Option String
  | .text t => if t = "" then none else some t
  | .face id? => some (renderFace id?)
  | .mface _ emojiId summary => some ("[大表情:" ++ jsOrStr summary emojiId "表情" ++ "]")
  | _ => none

/-- Invariant of the name → id map construction relative to the list of
already-processed `QQ_FACE_MAP` entries: every stored id is a safe id of its
name and minimal among the safe ids processed so far, and every processed
safe entry has a stored id for its name. -/
def FaceInv (done : List (Nat × String)) (m : List (String × Nat)) : Prop :=
  (∀ name id, entriesLookup m name = some id →
      (id, name) ∈ done ∧ id ∈ NAPCAT_SAFE_FACE_IDS ∧
      ∀ q ∈ done, q.2 = name → q.1 ∈ NAPCAT_SAFE_FACE_IDS → id ≤ q.1) ∧
  (∀ q ∈ done, q.1 ∈ NAPCAT_SAFE_FACE_IDS → ∃ id, entriesLookup m q.2 = some id)

/-- An enabled configuration with an open group policy and a cached self id. -/
def c1cfg : OneBotConfig :=
  { enabled := some true, groupPolicy := some .open_, selfId := some (.str "12345") }

/-- A group message event that mentions the bot. -/
def c1ev : OneBotEvent :=
  { postType := .message, messageType := .group, userId := 7, groupId := some 42,
    selfId := 12345, message := [.at "12345", .text "hello"] }

/-- A gateway on which every send reports `status: "failed"`. -/
def apiAllFail : SendReq → Bool := fun _ => false

/-- A voice-intent reply payload whose first media entry is audio. -/
def c2payload : ReplyPayload :=
  { text := some "hi", mediaUrls := some ["http://h/a.mp3"], audioAsVoice := true }

/-- Effect oracles on which every download fails and no file exists. -/
def noEffOracles : MediaOracles :=
  { downloadImage := fun _ => none
    readLocalFile := fun _ => none
    decodeURI := fun s => some s
    fsExists := fun _ => false
    downloadFile := fun _ => none }

/-- An inbound message holding only a remote-URL voice segment. -/
def c4msg : List OneBotMessage := [.record "http://h/v.amr" none]

/-- Oracles on which one remote image download succeeds. -/
def c4wOracles : MediaOracles :=
  { noEffOracles with
    downloadImage := fun u =>
      if u = "http://h/p.jpg" then
        some { path := "/tmp/p.jpg", dataUrl := "data:image/jpeg;base64,AQID",
               mimeType := "image/jpeg", size := 3 }
      else none }

/-- An inbound message with one downloadable image and one remote voice note. -/
def c4wmsg : List OneBotMessage :=
  [.image "http://h/p.jpg" none, .record "http://h/v.amr" none]

/-- A filesystem holding exactly one Unix file `/home/u/a.png`. -/
def c9fs : String → Option (List Nat) :=
  fun s => if s = "/home/u/a.png" then some [1, 2, 3] else none

/-- A Windows filesystem holding exactly one file `C:\t\a.png`. -/
def c9wfs : String → Option (List Nat) :=
  fun s => if s = "C:\\t\\a.png" then some [255, 0, 10] else none

end OneBot

namespace OneBot

/-! ## Helper lemmas -/

theorem str_append_empty (s : String) : s ++ "" = s := by
  cases s with
  | mk l =>
    show String.mk (l ++ []) = String.mk l
    rw [List.append_nil]

theorem str_data_append (s t : String) : (s ++ t).data = s.data ++ t.data := by
  cases s; cases t; rfl

theorem strJoin_singleton (s : String) : strJoin [s] = s := by
  show s ++ strJoin [] = s
  rw [show strJoin [] = "" from rfl, str_append_empty]

/-! ## Claim theorems -/

/-- C1: per the spec's Policy Gate, a group message event under a
non-disabled policy whose effective config does not disable the group and
whose mention requirement is satisfied should be accepted and proceed to
envelope building and dispatch.  The policy-gate logic of
`processOneBotMessage` indeed accepts such an event, but
`handleOneBotWebhook` unconditionally ignores every group message before
`processOneBotMessage` is ever invoked, so the event is dropped. -/
theorem c1_accepted_group_event_dropped_at_webhook :
    groupGate c1cfg 42 (isAtUser c1ev.message (JsVal.str "12345")) = true ∧
    handleOneBotWebhook c1cfg true c1ev = .ignoredGroup := by
  decide

/-- C2: with voice intent and an audio first media entry, exactly one voice
send is attempted; but when that send fails (gateway answers
`status: "failed"`), the deliver callback still returns immediately —
`deliverMediaToOneBot` swallows the failure into a boolean that is ignored,
so processing never falls through to the general media/text path. -/
theorem c2_failed_voice_send_skips_general_path :
    apiAllFail (SendReq.sendRecord "http://h/a.mp3") = false ∧
    deliverReply '/' (fun _ => none) apiAllFail c2payload =
      [SendReq.sendRecord "http://h/a.mp3"] := by
  decide

/-- C10: `sendMsg` throws `"Invalid message params"` — dispatching no HTTP
call — exactly when the parameters lack a truthy id matching the message
type; in particular a private send with `userId = 0` is rejected. -/
theorem c10_sendMsg_validation (p : SendMsgParams) :
    (sendMsg p = .error "Invalid message params" ↔
      (p.messageType = .private_ ∧ truthyNum p.userId = false) ∨
      (p.messageType = .group ∧ truthyNum p.groupId = false)) ∧
    sendMsg { p with messageType := .private_, userId := some 0 } =
      .error "Invalid message params" := by
  constructor
  · cases hmt : p.messageType <;>
      cases htu : truthyNum p.userId <;>
        cases htg : truthyNum p.groupId <;>
          simp [sendMsg, hmt, htu, htg]
  · simp [sendMsg, truthyNum]

/-- C10 witness: a private send with `userId = 0` is rejected with the
validation error. -/
theorem c10_sendMsg_validation_witness :
    sendMsg { messageType := .private_, userId := some 0, message := .plain "x" } =
      .error "Invalid message params" :=
  ((c10_sendMsg_validation
      { messageType := .private_, userId := some 0, message := .plain "x" }).1).mpr
    (by decide)

/-! ### Mention stripping (C3) -/

theorem noDang_tail {c : Char} {l : List Char} (h : noDanglingAt (c :: l) = true) :
    noDanglingAt l = true := by
  cases l with
  | nil => rfl
  | cons d rest =>
    have h' := h
    simp only [noDanglingAt, Bool.and_eq_true] at h'
    exact h'.2

theorem noDang_cons_ne {c : Char} {l : List Char} (hc : c ≠ '@')
    (h : noDanglingAt l = true) : noDanglingAt (c :: l) = true := by
  cases l with
  | nil => rfl
  | cons d rest => simp [noDanglingAt, hc, h]

theorem noDang_cons_at {l : List Char} (h : noDanglingAt l = true)
    (hl : l = [] ∨ ∃ d rest, l = d :: rest ∧ jsWs d = true) :
    noDanglingAt ('@' :: l) = true := by
  rcases hl with rfl | ⟨d, rest, rfl, hws⟩
  · rfl
  · simp [noDanglingAt, hws]
    simpa [noDanglingAt] using h

theorem takeWhile_nil_cases {p : Char → Bool} {l : List Char}
    (h : l.takeWhile p = []) : l = [] ∨ ∃ d rest, l = d :: rest ∧ p d = false := by
  cases l with
  | nil => exact Or.inl rfl
  | cons d rest =>
    refine Or.inr ⟨d, rest, rfl, ?_⟩
    by_cases hp : p d
    · simp [List.takeWhile_cons, hp] at h
    · simpa using hp

theorem jsWs_at : jsWs '@' = false := by decide

theorem stripAtAux_noDang : ∀ (cs : List Char) (skip : Nat),
    noDanglingAt (stripAtAux cs skip) = true := by
  intro cs
  induction cs with
  | nil => intro _; rfl
  | cons c cs ih =>
    intro skip
    cases skip with
    | succ k => simpa [stripAtAux] using ih k
    | zero =>
      by_cases hcond : (c = '@' && !(cs.takeWhile (fun d => !jsWs d)).isEmpty) = true
      · have : stripAtAux (c :: cs) 0 = stripAtAux cs
            ((cs.takeWhile (fun d => !jsWs d)).length +
             ((cs.dropWhile (fun d => !jsWs d)).takeWhile jsWs).length) := by
          simp [stripAtAux, hcond]
        rw [this]
        exact ih _
      · have hres : stripAtAux (c :: cs) 0 = c :: stripAtAux cs 0 := by
          simp only [stripAtAux]
          rw [if_neg (by simpa using hcond)]
        rw [hres]
        by_cases hc : c = '@'
        · subst hc
          have hrun : cs.takeWhile (fun d => !jsWs d) = [] := by
            by_contra hne
            exact hcond (by simp [List.isEmpty_iff, hne])
          rcases takeWhile_nil_cases hrun with rfl | ⟨d, rest, rfl, hd⟩
          · rfl
          · have hws : jsWs d = true := by simpa using hd
            have hdne : d ≠ '@' := by
              intro hdd; rw [hdd, jsWs_at] at hws; exact Bool.false_ne_true hws
            have hd0 : stripAtAux (d :: rest) 0 = d :: stripAtAux rest 0 := by
              simp only [stripAtAux]
              rw [if_neg (by simp [hdne])]
            refine noDang_cons_at (ih 0) ?_
            exact Or.inr ⟨d, stripAtAux rest 0, hd0, hws⟩
        · exact noDang_cons_ne hc (ih 0)

theorem noDang_dropWhile (p : Char → Bool) :
    ∀ l : List Char, noDanglingAt l = true → noDanglingAt (l.dropWhile p) = true := by
  intro l
  induction l with
  | nil => exact fun h => h
  | cons c cs ih =>
    intro h
    rw [List.dropWhile_cons]
    by_cases hp : p c
    · simp only [hp, if_true]
      exact ih (noDang_tail h)
    · simp only [hp, if_false]
      exact h

theorem dropEndWs_head (d : Char) (rest : List Char) :
    dropEndWs (d :: rest) = [] ∨ ∃ r, dropEndWs (d :: rest) = d :: r := by
  cases hdrop : dropEndWs rest with
  | nil =>
    by_cases hws : jsWs d
    · exact Or.inl (by simp [dropEndWs, hdrop, hws])
    · exact Or.inr ⟨[], by simp [dropEndWs, hdrop, hws]⟩
  | cons e r => exact Or.inr ⟨e :: r, by simp [dropEndWs, hdrop]⟩

theorem noDang_dropEndWs :
    ∀ l : List Char, noDanglingAt l = true → noDanglingAt (dropEndWs l) = true := by
  intro l
  induction l with
  | nil => exact fun h => h
  | cons c cs ih =>
    intro h
    have htail := noDang_tail h
    cases hdrop : dropEndWs cs with
    | nil =>
      have heq : dropEndWs (c :: cs) = if jsWs c then [] else [c] := by
        simp [dropEndWs, hdrop]
      rw [heq]
      by_cases hws : jsWs c <;> simp [hws] <;> rfl
    | cons d rest =>
      have heq : dropEndWs (c :: cs) = c :: d :: rest := by
        simp [dropEndWs, hdrop]
      rw [heq]
      have ihr : noDanglingAt (d :: rest) = true := by
        have := ih htail
        rwa [hdrop] at this
      by_cases hc : c = '@'
      · subst hc
        cases cs with
        | nil => simp [dropEndWs] at hdrop
        | cons e cs' =>
          have hws : jsWs e = true := by
            have h' := h
            simp only [noDanglingAt, Bool.and_eq_true, if_pos rfl] at h'
            exact h'.1
          have hde : d = e := by
            rcases dropEndWs_head e cs' with hnil | ⟨r, hr⟩
            · rw [hnil] at hdrop; exact absurd hdrop (by simp)
            · rw [hr] at hdrop
              exact (List.cons.injEq _ _ _ _ ▸ hdrop).1.symm
          refine noDang_cons_at ihr (Or.inr ⟨d, rest, rfl, hde ▸ hws⟩)
      · exact noDang_cons_ne hc ihr

theorem stripMentions_noDang (s : String) :
    noDanglingAt (stripMentions s).data = true :=
  noDang_dropEndWs _ (noDang_dropWhile _ _ (stripAtAux_noDang s.data 0))

/-- C3 counterexample: the claim says a non-leading `@` token passes through
unchanged, so on `"hi @bob done"` (no leading mention) the strip should be
the identity; the code's global `replace(/@[^\s]+\s*/g, "")` removes the
mid-text token and yields `"hi done"`. -/
theorem c3_counterexample :
    stripMentions "hi @bob done" = "hi done" ∧
    ("hi done" : String) ≠ "hi @bob done" := by
  decide

/-- C3 amended: on the accept path every `@`-token occurrence (an `@`
followed by a maximal non-whitespace run, plus trailing whitespace) is
removed wherever it occurs — not only a leading one — and the result is
trimmed: afterwards no `'@'` immediately followed by a non-whitespace
character remains, and mid-text tokens are removed too. -/
theorem c3_all_at_tokens_removed :
    (∀ s : String, noDanglingAt (stripMentions s).data = true) ∧
    stripMentions "a @b c" = "a c" :=
  ⟨stripMentions_noDang, by decide⟩

/-! ### Segment-codec text extraction (C5) -/

theorem extractParts_eq_filterMap (msg : List OneBotMessage) :
    extractParts msg = msg.filterMap specSegmentContribution := by
  induction msg with
  | nil => rfl
  | cons seg rest ih =>
    rcases seg with t | id? | ⟨f, u⟩ | ⟨f, u⟩ | ⟨f, u⟩ | qq | i | ⟨f, u, nm, sz⟩ |
      ⟨u, e, s⟩ | k
    · by_cases h : t = "" <;>
        simp [extractParts, specSegmentContribution, List.filterMap_cons, h, ih]
    all_goals simp [extractParts, specSegmentContribution, List.filterMap_cons, ih]

/-- C5 counterexample: the claim says every segment kind other than text and
face — listing mface explicitly — contributes nothing, so a message holding a
single mface segment should extract to `""`; `extractTextFromMessage` renders
it as a bracketed 大表情 summary. -/
theorem c5_counterexample :
    extractTextFromMessage [OneBotMessage.mface none (some "id9") (some "猫猫")] =
      "[大表情:猫猫]" ∧
    ("[大表情:猫猫]" : String) ≠ "" := by
  decide

/-- C5 amended: `extractTextFromMessage` is the in-order concatenation of
contributions from exactly the text, face and mface segments — text segments
contribute their content, face segments a bracketed resolved name (or id),
mface segments a bracketed 大表情 summary — and every other segment kind
(image, record, video, file, at, reply, ...) contributes nothing. -/
theorem c5_contributions_text_face_mface (msg : List OneBotMessage) :
    extractTextFromMessage msg = strJoin (msg.filterMap specSegmentContribution) := by
  show strJoin (extractParts msg) = _
  rw [extractParts_eq_filterMap]

/-! ### Local-file URI normalisation (C9) -/

theorem stripPfx_self_append (p r : List Char) : stripPfx p (p ++ r) = some r := by
  induction p with
  | nil => rfl
  | cons a ps ih => simp [stripPfx, ih]

theorem stripPfx_append_pat (a b cs : List Char) :
    stripPfx (a ++ b) cs = (stripPfx a cs).bind (stripPfx b) := by
  induction a generalizing cs with
  | nil => simp [stripPfx]
  | cons x xs ih =>
    cases cs with
    | nil => simp [stripPfx]
    | cons c cs2 =>
      simp only [List.cons_append, stripPfx]
      by_cases h : c = x <;> simp [h, ih]

theorem hasPfx_false_strip {p cs : List Char} (h : hasPfx p cs = false) :
    stripPfx p cs = none := by
  cases hx : stripPfx p cs with
  | none => rfl
  | some r =>
    exfalso
    rw [hasPfx, hx] at h
    simp at h

/-- C9 counterexample: for the Unix file `/home/u/a.png` the bare path
resolves to its base64 payload while the standard URI spelling
`file:///home/u/a.png` is sliced to the relative `home/u/a.png` and fails the
existence check, so the two spellings do not resolve alike. -/
theorem c9_counterexample :
    localFileToBase64Url '/' c9fs "/home/u/a.png" = some "base64://AQID" ∧
    localFileToBase64Url '/' c9fs "file:///home/u/a.png" = none := by
  decide

/-- C9 amended: spelling-insensitivity holds exactly when the text after the
URI scheme is the path itself: for any path not beginning with `/` (e.g. a
Windows drive-letter path) and not itself scheme-prefixed, both the
`file://` and the `file:///` spelling resolve to the same payload as the
bare path; for Unix absolute paths the `file:///p` spelling loses the
leading slash and resolves differently. -/
theorem c9_uri_insensitive_for_nonslash_paths (sep : Char)
    (fsRead : String → Option (List Nat)) (p : String)
    (h1 : hasPfx "/".data p.data = false)
    (h2 : hasPfx "file:".data p.data = false) :
    localFileToBase64Url sep fsRead ("file://" ++ p) =
      localFileToBase64Url sep fsRead p ∧
    localFileToBase64Url sep fsRead ("file:///" ++ p) =
      localFileToBase64Url sep fsRead p := by
  have h8r : stripPfx "file:///".data p.data = none := by
    have hsplit : ("file:///".data : List Char) = "file:".data ++ "///".data := by decide
    rw [hsplit, stripPfx_append_pat, hasPfx_false_strip h2, Option.none_bind]
  have h7r : stripPfx "file://".data p.data = none := by
    have hsplit : ("file://".data : List Char) = "file:".data ++ "//".data := by decide
    rw [hsplit, stripPfx_append_pat, hasPfx_false_strip h2, Option.none_bind]
  constructor
  · have hdata : ("file://" ++ p).data = "file://".data ++ p.data := str_data_append _ _
    have h8 : stripPfx "file:///".data ("file://".data ++ p.data) = none := by
      have hsplit : ("file:///".data : List Char) = "file://".data ++ "/".data := by decide
      rw [hsplit, stripPfx_append_pat, stripPfx_self_append, Option.some_bind]
      exact hasPfx_false_strip h1
    have hnorm : normalizeFileUrl ("file://" ++ p).data = normalizeFileUrl p.data := by
      rw [hdata]
      rw [normalizeFileUrl, h8, stripPfx_self_append]
      rw [normalizeFileUrl, h8r, h7r]
    simp only [localFileToBase64Url]
    rw [hnorm]
  · have hdata3 : ("file:///" ++ p).data = "file:///".data ++ p.data :=
      str_data_append _ _
    have hnorm3 : normalizeFileUrl ("file:///" ++ p).data = normalizeFileUrl p.data := by
      rw [hdata3]
      rw [normalizeFileUrl, stripPfx_self_append]
      rw [normalizeFileUrl, h8r, h7r]
    simp only [localFileToBase64Url]
    rw [hnorm3]

/-- C9 witness: for the Windows drive-letter path `C:/t/a.png` both URI
spellings and the bare path resolve to the same concrete base64 payload. -/
theorem c9_uri_insensitive_witness :
    localFileToBase64Url '\\' c9wfs ("file://" ++ "C:/t/a.png") =
      localFileToBase64Url '\\' c9wfs "C:/t/a.png" ∧
    localFileToBase64Url '\\' c9wfs ("file:///" ++ "C:/t/a.png") =
      localFileToBase64Url '\\' c9wfs "C:/t/a.png" ∧
    localFileToBase64Url '\\' c9wfs "C:/t/a.png" = some "base64:///wAK" :=
  ⟨(c9_uri_insensitive_for_nonslash_paths '\\' c9wfs "C:/t/a.png"
      (by decide) (by decide)).1,
   (c9_uri_insensitive_for_nonslash_paths '\\' c9wfs "C:/t/a.png"
      (by decide) (by decide)).2,
   by decide⟩

/-! ### Emoji scanner lemmas (C6, C7) -/

theorem string_mk_data (s : String) : String.mk s.data = s := rfl

theorem emojiScanAux_skip_all :
    ∀ (cs pending : List Char) (skip : Nat), cs.length ≤ skip →
      emojiScanAux cs pending skip = flushText pending [] := by
  intro cs
  induction cs with
  | nil => intro pending skip _; rfl
  | cons c cs ih =>
    intro pending skip h
    cases skip with
    | zero => simp at h
    | succ k =>
      have : emojiScanAux (c :: cs) pending (k + 1) = emojiScanAux cs pending k := rfl
      rw [this]
      exact ih pending k (Nat.le_of_succ_le_succ h)

theorem emojiScanAux_no_match :
    ∀ cs : List Char, emojiTest cs = false →
      ∀ pending, emojiScanAux cs pending 0 = flushText (cs.reverse ++ pending) [] := by
  intro cs
  induction cs with
  | nil => intro _ pending; rfl
  | cons c cs ih =>
    intro h pending
    cases htn : tryFaceName (c :: cs) with
    | some v => rw [emojiTest, htn] at h; simp at h
    | none =>
      cases hti : tryFaceId (c :: cs) with
      | some v => rw [emojiTest, htn, hti] at h; simp at h
      | none =>
        have h3 : emojiTest cs = false := by
          rw [emojiTest, htn, hti] at h
          simpa using h
        have harm : emojiScanAux (c :: cs) pending 0 = emojiScanAux cs (c :: pending) 0 := by
          simp [emojiScanAux, htn, hti]
        rw [harm, ih h3 (c :: pending)]
        simp

theorem parse_no_match {s : String} (h : hasEmojiCode s = false) :
    parseTextWithEmoji s = [.text s] := by
  have hscan : emojiScan s.data = flushText s.data.reverse [] := by
    have := emojiScanAux_no_match s.data h []
    simpa [emojiScan] using this
  unfold parseTextWithEmoji
  rw [hscan]
  by_cases hs : s.data = []
  · rw [hs]; rfl
  · have hrev : ¬s.data.reverse.isEmpty = true := by
      simpa [List.isEmpty_iff] using hs
    rw [flushText, if_neg hrev]
    simp [string_mk_data]

/-- C7: an input with no occurrence of the emoji notation encodes to exactly
one text segment carrying the whole input — even the empty string — and the
encode/extract/encode round trip is text-stable. -/
theorem c7_no_notation_roundtrip (s : String) (h : hasEmojiCode s = false) :
    parseTextWithEmoji s = [.text s] ∧
    extractTextFromMessage (parseTextWithEmoji s) = s ∧
    parseTextWithEmoji (extractTextFromMessage (parseTextWithEmoji s)) = [.text s] := by
  have hp := parse_no_match h
  have hextract : extractTextFromMessage (parseTextWithEmoji s) = s := by
    rw [hp]
    by_cases hs : s = ""
    · subst hs; rfl
    · show strJoin (extractParts [.text s]) = s
      simp only [extractParts, if_neg hs]
      exact strJoin_singleton s
  exact ⟨hp, hextract, by rw [hextract]; exact hp⟩

/-- C7 witness: the round trip on the concrete notation-free input
`"hello world"`. -/
theorem c7_no_notation_roundtrip_witness :
    parseTextWithEmoji "hello world" = [.text "hello world"] ∧
    extractTextFromMessage (parseTextWithEmoji "hello world") = "hello world" ∧
    parseTextWithEmoji (extractTextFromMessage (parseTextWithEmoji "hello world")) =
      [.text "hello world"] :=
  c7_no_notation_roundtrip "hello world" (by decide)

/-- C8: a standalone text send that used emoji-segment encoding and got a
non-ok status is retried exactly once as plain text with the same content; a
plain-text send is never retried; and no send in one reconciliation pass is
issued twice (the text trace is duplicate-free of length at most two, and
each media delivery issues pairwise-distinct requests). -/
theorem c8_text_retry_discipline (api : SendReq → Bool) (text : String) :
    (hasEmojiCode text = true →
      api (.sendText (.segs (parseTextWithEmoji text))) = false →
      textSendTrace api text =
        [.sendText (.segs (parseTextWithEmoji text)), .sendText (.plain text)]) ∧
    (hasEmojiCode text = false →
      textSendTrace api text = [.sendText (.plain text)]) ∧
    (textSendTrace api text).length ≤ 2 ∧
    (textSendTrace api text).Nodup ∧
    (∀ (sep : Char) (fsRead : String → Option (List Nat)) (u : String)
        (cap : Option String), (deliverMediaToOneBot sep fsRead api u cap).1.Nodup) := by
  refine ⟨?_, ?_, ?_, ?_, ?_⟩
  · intro he hfail
    simp [textSendTrace, he, hfail]
  · intro he
    by_cases h : api (.sendText (.plain text)) <;> simp [textSendTrace, he, h]
  · unfold textSendTrace
    by_cases he : hasEmojiCode text
    · simp only [he, if_true]
      by_cases h1 : api (.sendText (.segs (parseTextWithEmoji text))) <;> simp [h1]
    · simp only [he]
      by_cases h1 : api (.sendText (.plain text)) <;> simp [h1]
  · unfold textSendTrace
    by_cases he : hasEmojiCode text
    · simp only [he, if_true]
      by_cases h1 : api (.sendText (.segs (parseTextWithEmoji text))) <;> simp [h1]
    · simp only [he]
      by_cases h1 : api (.sendText (.plain text)) <;> simp [h1]
  · intro sep fsRead u cap
    unfold deliverMediaToOneBot
    cases hurl : (if isLocalFilePath u then localFileToBase64Url sep fsRead u
        else some u) with
    | none => simp
    | some url =>
      cases hkind : detectMediaKind u with
      | video => simp
      | audio =>
        by_cases hr : api (.sendRecord url)
        · cases hcap : truthyStr cap with
          | some c2 => simp [hr, hcap]
          | none => simp [hr, hcap]
        · simp [hr]
      | image => simp
      | document => simp

/-- C8 witness: a failing emoji-encoded send of `"[表情:微笑]"` is retried
once as plain text; a failing plain send of `"plain"` is not retried. -/
theorem c8_text_retry_discipline_witness :
    textSendTrace apiAllFail "[表情:微笑]" =
      [.sendText (.segs (parseTextWithEmoji "[表情:微笑]")),
       .sendText (.plain "[表情:微笑]")] ∧
    textSendTrace apiAllFail "plain" = [.sendText (.plain "plain")] :=
  ⟨(c8_text_retry_discipline apiAllFail "[表情:微笑]").1 (by decide) rfl,
   (c8_text_retry_discipline apiAllFail "plain").2.1 (by decide)⟩

/-! ### Inbound empty-content rule (C4) -/

theorem stripMentions_empty : stripMentions "" = "" := rfl

/-- C4 counterexample: a message holding only a remote-URL voice segment has
non-empty extracted media and empty text, yet the event is rejected by the
empty-content rule, because the rule keys on locally materialised paths and a
remote voice note contributes none. -/
theorem c4_counterexample :
    extractMediaFromMessage c4msg ≠ [] ∧
    extractTextFromMessage c4msg = "" ∧
    computeInboundBody noEffOracles {} false c4msg = none := by
  decide

/-- C4 amended: when the extracted text is empty (and the media loop appended
no file text), the event survives the empty-content rule and receives the
space-joined placeholder body exactly when at least one media item
materialised to a local path (`mediaPaths` non-empty); media yielding no
local path — remote-URL voice notes, failed downloads, video — do not count,
and an event with only such media is rejected. -/
theorem c4_empty_rule_keyed_on_media_paths (O : MediaOracles) (cfg : OneBotConfig)
    (isGroup : Bool) (msg : List OneBotMessage)
    (hText : jsTrim (extractTextFromMessage msg) = "")
    (hFC : (runMediaLoop O (extractMediaFromMessage msg)).fileContents = []) :
    computeInboundBody O cfg isGroup msg =
      if (runMediaLoop O (extractMediaFromMessage msg)).mediaPaths = [] then none
      else some (strJoinSep " " ((extractMediaFromMessage msg).map mediaPlaceholder)) := by
  by_cases hmp : (runMediaLoop O (extractMediaFromMessage msg)).mediaPaths = [] <;>
    simp [computeInboundBody, hText, hFC, hmp, stripMentions_empty, List.isEmpty_iff]

/-- C4 witness: with one successfully downloaded image and one remote voice
note, the text-free event is delivered with one placeholder per extracted
item. -/
theorem c4_empty_rule_witness :
    computeInboundBody c4wOracles {} false c4wmsg =
      some "<media:image> <media:audio>" := by
  have h := c4_empty_rule_keyed_on_media_paths c4wOracles {} false c4wmsg
    (by decide) (by decide)
  rw [h]
  decide

/-! ### Face name → id map construction (C6) -/

theorem entriesLookup_cons (k : String) (v : Nat) (m : List (String × Nat))
    (name : String) :
    entriesLookup ((k, v) :: m) name =
      if k = name then some v else entriesLookup m name := by
  by_cases h : k = name
  · rw [if_pos h]
    unfold entriesLookup
    rw [List.find?_cons_of_pos _ (by simpa using h)]
    rfl
  · rw [if_neg h]
    unfold entriesLookup
    rw [List.find?_cons_of_neg _ (by simpa using h)]

theorem entriesLookup_append_some {m1 : List (String × Nat)} {name : String} {v : Nat}
    (h : entriesLookup m1 name = some v) (m2 : List (String × Nat)) :
    entriesLookup (m1 ++ m2) name = some v := by
  induction m1 with
  | nil => simp [entriesLookup] at h
  | cons kv m1 ih =>
    obtain ⟨k, w⟩ := kv
    rw [entriesLookup_cons] at h
    rw [List.cons_append, entriesLookup_cons]
    by_cases hk : k = name
    · rwa [if_pos hk] at h ⊢
    · rw [if_neg hk] at h ⊢
      exact ih h

theorem entriesLookup_append_none {m1 : List (String × Nat)} {name : String}
    (h : entriesLookup m1 name = none) (m2 : List (String × Nat)) :
    entriesLookup (m1 ++ m2) name = entriesLookup m2 name := by
  induction m1 with
  | nil => simp
  | cons kv m1 ih =>
    obtain ⟨k, w⟩ := kv
    rw [entriesLookup_cons] at h
    rw [List.cons_append, entriesLookup_cons]
    by_cases hk : k = name
    · rw [if_pos hk] at h; exact absurd h (by simp)
    · rw [if_neg hk] at h ⊢
      exact ih h

theorem entriesLookup_mapUpdate (m : List (String × Nat)) (key : String) (v : Nat)
    (name : String) :
    entriesLookup (m.map fun q => if q.1 = key then (q.1, v) else q) name =
      if name = key then (entriesLookup m name).map (fun _ => v)
      else entriesLookup m name := by
  induction m with
  | nil => by_cases h : name = key <;> simp [entriesLookup, h]
  | cons kv m ih =>
    obtain ⟨k, w⟩ := kv
    simp only [List.map_cons]
    by_cases hk : k = key
    · by_cases hn : name = key
      · have hkn : k = name := by rw [hk, hn]
        simp [entriesLookup_cons, hk, hn, hkn]
      · have hkn : ¬k = name := fun hh => hn (by rw [← hh, hk])
        have hkn2 : ¬key = name := fun hh => hn hh.symm
        simp [entriesLookup_cons, hk, hn, hkn, hkn2, ih]
    · by_cases hn : name = key
      · have hkn : ¬k = name := fun hh => hk (by rw [hh, hn])
        simp only [if_neg hk, entriesLookup_cons, if_neg hkn, ih, if_pos hn]
      · by_cases hkn : k = name
        · simp [entriesLookup_cons, hk, hn, hkn]
        · simp [entriesLookup_cons, hk, hn, hkn, ih]

theorem contains_mem_nat {l : List Nat} {a : Nat} : l.contains a = true ↔ a ∈ l := by
  simp

theorem faceNameStep_inv {done : List (Nat × String)} {m : List (String × Nat)}
    {e : Nat × String} (h : FaceInv done m) :
    FaceInv (done ++ [e]) (faceNameStep m e) := by
  obtain ⟨hfwd, hex⟩ := h
  by_cases hsafe : NAPCAT_SAFE_FACE_IDS.contains e.1
  · have hsafeMem : e.1 ∈ NAPCAT_SAFE_FACE_IDS := contains_mem_nat.mp hsafe
    cases hlook : entriesLookup m e.2 with
    | none =>
      have hstep : faceNameStep m e = m ++ [(e.2, e.1)] := by
        simp only [faceNameStep, if_pos hsafe, hlook]
      rw [hstep]
      constructor
      · intro name id hl
        cases hl1 : entriesLookup m name with
        | some v =>
          rw [entriesLookup_append_some hl1] at hl
          obtain ⟨hmem, hsafe2, hmin⟩ := hfwd name v hl1
          have hvid : v = id := by simpa using hl
          subst hvid
          refine ⟨List.mem_append_left _ hmem, hsafe2, ?_⟩
          intro q hq hq2 hq3
          rcases List.mem_append.mp hq with hq | hq
          · exact hmin q hq hq2 hq3
          · have hqe : q = e := List.mem_singleton.mp hq
            rw [hqe] at hq2
            rw [hq2] at hlook
            rw [hlook] at hl1
            exact absurd hl1 (by simp)
        | none =>
          rw [entriesLookup_append_none hl1, entriesLookup_cons] at hl
          by_cases hn : e.2 = name
          · rw [if_pos hn] at hl
            have hid : e.1 = id := by simpa using hl
            refine ⟨?_, by rw [← hid]; exact hsafeMem, ?_⟩
            · apply List.mem_append_right
              simp only [List.mem_singleton]
              rw [← hid, ← hn]
            · intro q hq hq2 hq3
              rcases List.mem_append.mp hq with hq | hq
              · obtain ⟨w, hw⟩ := hex q hq hq3
                rw [hq2, ← hn, hlook] at hw
                exact absurd hw (by simp)
              · have hqe : q = e := List.mem_singleton.mp hq
                rw [hqe, hid]
          · rw [if_neg hn] at hl
            exact absurd hl (by simp [entriesLookup])
      · intro q hq hq1
        rcases List.mem_append.mp hq with hq | hq
        · obtain ⟨id, hid⟩ := hex q hq hq1
          exact ⟨id, entriesLookup_append_some hid _⟩
        · have hqe : q = e := List.mem_singleton.mp hq
          refine ⟨e.1, ?_⟩
          rw [hqe, entriesLookup_append_none hlook, entriesLookup_cons, if_pos rfl]
    | some cur =>
      by_cases hlt : e.1 < cur
      · have hstep : faceNameStep m e =
            m.map fun q => if q.1 = e.2 then (q.1, e.1) else q := by
          simp only [faceNameStep, if_pos hsafe, hlook]
          rw [if_pos hlt]
        rw [hstep]
        constructor
        · intro name id hl
          rw [entriesLookup_mapUpdate] at hl
          by_cases hn : name = e.2
          · rw [if_pos hn] at hl
            rw [hn, hlook] at hl
            have hid : e.1 = id := by simpa using hl
            obtain ⟨hmemc, hsafec, hminc⟩ := hfwd e.2 cur hlook
            refine ⟨?_, by rw [← hid]; exact hsafeMem, ?_⟩
            · apply List.mem_append_right
              simp only [List.mem_singleton]
              rw [← hid, hn]
            · intro q hq hq2 hq3
              rcases List.mem_append.mp hq with hq | hq
              · have hc := hminc q hq (by rw [hq2, hn]) hq3
                rw [← hid]
                omega
              · have hqe : q = e := List.mem_singleton.mp hq
                rw [hqe, hid]
          · rw [if_neg hn] at hl
            obtain ⟨hmem, hsafe2, hmin⟩ := hfwd name id hl
            refine ⟨List.mem_append_left _ hmem, hsafe2, ?_⟩
            intro q hq hq2 hq3
            rcases List.mem_append.mp hq with hq | hq
            · exact hmin q hq hq2 hq3
            · have hqe : q = e := List.mem_singleton.mp hq
              rw [hqe] at hq2
              exact absurd hq2.symm hn
        · intro q hq hq1
          rw [entriesLookup_mapUpdate]
          rcases List.mem_append.mp hq with hq | hq
          · obtain ⟨id, hid⟩ := hex q hq hq1
            by_cases hn : q.2 = e.2
            · simp [hn, hlook]
            · simp [hn, hid]
          · have hqe : q = e := List.mem_singleton.mp hq
            rw [hqe]
            simp [hlook]
      · have hstep : faceNameStep m e = m := by
          simp only [faceNameStep, if_pos hsafe, hlook]
          rw [if_neg hlt]
        rw [hstep]
        constructor
        · intro name id hl
          obtain ⟨hmem, hsafe2, hmin⟩ := hfwd name id hl
          refine ⟨List.mem_append_left _ hmem, hsafe2, ?_⟩
          intro q hq hq2 hq3
          rcases List.mem_append.mp hq with hq | hq
          · exact hmin q hq hq2 hq3
          · have hqe : q = e := List.mem_singleton.mp hq
            rw [hqe] at hq2
            rw [hq2] at hlook
            rw [hl] at hlook
            have hcur : id = cur := by simpa using hlook
            rw [hqe]
            omega
        · intro q hq hq1
          rcases List.mem_append.mp hq with hq | hq
          · exact hex q hq hq1
          · have hqe : q = e := List.mem_singleton.mp hq
            rw [hqe]
            exact ⟨cur, hlook⟩
  · have hstep : faceNameStep m e = m := by
      simp only [faceNameStep, if_neg hsafe]
    have hsafeMem : e.1 ∉ NAPCAT_SAFE_FACE_IDS := fun hmem =>
      hsafe (contains_mem_nat.mpr hmem)
    rw [hstep]
    constructor
    · intro name id hl
      obtain ⟨hmem, hsafe2, hmin⟩ := hfwd name id hl
      refine ⟨List.mem_append_left _ hmem, hsafe2, ?_⟩
      intro q hq hq2 hq3
      rcases List.mem_append.mp hq with hq | hq
      · exact hmin q hq hq2 hq3
      · have hqe : q = e := List.mem_singleton.mp hq
        rw [hqe] at hq3
        exact absurd hq3 hsafeMem
    · intro q hq hq1
      rcases List.mem_append.mp hq with hq | hq
      · exact hex q hq hq1
      · have hqe : q = e := List.mem_singleton.mp hq
        rw [hqe] at hq1
        exact absurd hq1 hsafeMem

theorem faceNameFold_inv :
    ∀ (es done : List (Nat × String)) (m : List (String × Nat)),
      FaceInv done m → FaceInv (done ++ es) (es.foldl faceNameStep m) := by
  intro es
  induction es with
  | nil => intro done m h; simpa using h
  | cons e es ih =>
    intro done m h
    have h2 := ih (done ++ [e]) (faceNameStep m e) (faceNameStep_inv h)
    rw [List.foldl_cons]
    simpa [List.append_assoc] using h2

theorem faceNameEntries_inv : FaceInv QQ_FACE_MAP faceNameEntries := by
  have h0 : FaceInv [] [] := by
    constructor
    · intro name id hl
      simp [entriesLookup] at hl
    · intro q hq
      simp at hq
  have h := faceNameFold_inv QQ_FACE_MAP [] [] h0
  simpa [faceNameEntries] using h

/-! ### Single-notation parses for well-formed names (C6) -/

theorem takeWhile_append_all {p : Char → Bool} {l : List Char}
    (h : ∀ c ∈ l, p c = true) (l2 : List Char) :
    (l ++ l2).takeWhile p = l ++ l2.takeWhile p := by
  induction l with
  | nil => simp
  | cons c cs ih =>
    have hc := h c (List.mem_cons_self _ _)
    simp only [List.cons_append, List.takeWhile_cons, hc, if_true]
    rw [ih (fun d hd => h d (List.mem_cons_of_mem _ hd))]

theorem dropWhile_append_all {p : Char → Bool} {l : List Char}
    (h : ∀ c ∈ l, p c = true) (l2 : List Char) :
    (l ++ l2).dropWhile p = l2.dropWhile p := by
  induction l with
  | nil => simp
  | cons c cs ih =>
    have hc := h c (List.mem_cons_self _ _)
    simp only [List.cons_append, List.dropWhile_cons, hc, if_true]
    exact ih (fun d hd => h d (List.mem_cons_of_mem _ hd))

theorem tryFaceName_of_wf {name : String} (hne : name.data ≠ [])
    (hnb : ∀ c ∈ name.data, c ≠ ']') (r : List Char) :
    tryFaceName (faceNameMark ++ (name.data ++ (']' :: r))) = some (name.data, r) := by
  have hall : ∀ c ∈ name.data, (fun c => decide (c ≠ ']')) c = true := by
    intro c hc
    simpa using hnb c hc
  unfold tryFaceName
  simp only [stripPfx_self_append]
  rw [takeWhile_append_all hall, dropWhile_append_all hall]
  simp [List.takeWhile_cons, List.dropWhile_cons, List.isEmpty_iff, hne]

theorem parse_single_name (name : String) (hne : name.data ≠ [])
    (hnb : ∀ c ∈ name.data, c ≠ ']') :
    parseTextWithEmoji ("[表情:" ++ name ++ "]") =
      [match QQ_FACE_NAME_TO_ID name with
       | some id => .face (some (.int id))
       | none => .text ("[表情:" ++ name ++ "]")] := by
  have hdata : ("[表情:" ++ name ++ "]").data =
      faceNameMark ++ (name.data ++ (']' :: [])) := by
    rw [str_data_append, str_data_append]
    simp [faceNameMark]
  have htry := tryFaceName_of_wf hne hnb []
  have htail :
      faceNameMark ++ (name.data ++ (']' :: [])) =
        '[' :: ('表' :: '情' :: ':' :: (name.data ++ (']' :: []))) := by
    simp [faceNameMark]
  have hskip :
      emojiScanAux ('表' :: '情' :: ':' :: (name.data ++ (']' :: []))) []
        (4 + name.data.length) = [] := by
    apply emojiScanAux_skip_all
    simp [List.length_append]
    omega
  have hmk : String.mk (faceNameMark ++ name.data ++ [']']) = "[表情:" ++ name ++ "]" := by
    rw [show faceNameMark ++ name.data ++ [']'] =
        faceNameMark ++ (name.data ++ (']' :: [])) from by simp, ← hdata]
  have hseg : emojiSegOfName name.data =
      match QQ_FACE_NAME_TO_ID name with
      | some id => OneBotMessage.face (some (.int id))
      | none => OneBotMessage.text ("[表情:" ++ name ++ "]") := by
    unfold emojiSegOfName
    rw [show String.mk name.data = name from rfl]
    cases QQ_FACE_NAME_TO_ID name with
    | some id => rfl
    | none => rw [hmk]
  unfold parseTextWithEmoji emojiScan
  rw [hdata, htail]
  have harm :
      emojiScanAux
        ('[' :: ('表' :: '情' :: ':' :: (name.data ++ (']' :: [])))) [] 0 =
        flushText []
          (emojiSegOfName name.data ::
            emojiScanAux ('表' :: '情' :: ':' :: (name.data ++ (']' :: []))) []
              (4 + name.data.length)) := by
    have htry' :
        tryFaceName ('[' :: ('表' :: '情' :: ':' :: (name.data ++ (']' :: [])))) =
          some (name.data, []) := by
      rw [← htail]
      exact htry
    simp [emojiScanAux, htry']
  rw [harm, hskip, hseg]
  rfl

/-- C6: `getFaceIdByName` emits only ids in the guaranteed-safe subset, and
for a duplicated name always the lowest safe id in the table; a well-formed
name with no safe id degrades to a literal bracketed text segment;
`[face:14]` extracts to `[表情:微笑]`, and encoding `[表情:微笑]` yields a
single face segment with id 14. -/
theorem c6_safe_lowest_id_and_smile_roundtrip :
    (∀ name id, getFaceIdByName name = some id →
        id ∈ NAPCAT_SAFE_FACE_IDS ∧
        ∀ p ∈ QQ_FACE_MAP, p.2 = name → p.1 ∈ NAPCAT_SAFE_FACE_IDS → id ≤ p.1) ∧
    (∀ name : String, name.data ≠ [] → (∀ c ∈ name.data, c ≠ ']') →
        getFaceIdByName name = none →
        parseTextWithEmoji ("[表情:" ++ name ++ "]") =
          [.text ("[表情:" ++ name ++ "]")]) ∧
    extractTextFromMessage [.face (some (.int 14))] = "[表情:微笑]" ∧
    parseTextWithEmoji "[表情:微笑]" = [.face (some (.int 14))] := by
  refine ⟨?_, ?_, by decide, by decide⟩
  · intro name id hl
    obtain ⟨hmem, hsafe, hmin⟩ := faceNameEntries_inv.1 name id hl
    exact ⟨hsafe, fun p hp hp2 hp3 => hmin p hp hp2 hp3⟩
  · intro name hne hnb hlook
    have hlook' : QQ_FACE_NAME_TO_ID name = none := hlook
    rw [parse_single_name name hne hnb, hlook']

/-- C6 witness: `14` is a safe id reachable for `微笑`, and the unmapped name
`肥猫` degrades to a literal text segment. -/
theorem c6_safe_lowest_id_witness :
    (14 : Nat) ∈ NAPCAT_SAFE_FACE_IDS ∧
    parseTextWithEmoji "[表情:肥猫]" = [.text "[表情:肥猫]"] :=
  ⟨(c6_safe_lowest_id_and_smile_roundtrip.1 "微笑" 14 (by decide)).1,
   c6_safe_lowest_id_and_smile_roundtrip.2.1 "肥猫" (by decide) (by decide) (by decide)⟩

end OneBot
